import Mathlib

/-!
Verification development for the OTB (on-the-books) reservation KPI engine
of `app3.0.py`: record normalization (`load_excel` / `parse_dates`), nightly
expansion (`expand_reservations`), KPI aggregation (`compute_kpis`) and the
cutoff-evolution series driver.

Dates are modelled at calendar-day granularity as integers (days since an
arbitrary epoch), matching the day-frequency `pd.date_range` arithmetic of
the source.  Money is modelled as exact rationals, so "equal up to
floating-point rounding" becomes exact equality.  A parse failure of
`pd.to_datetime(..., errors="coerce")` / `pd.to_numeric(..., errors="coerce")`
is modelled as `none` in the corresponding `Option` field of a raw row.
-/

namespace OTB

/-- One raw input row after cell-level parsing: each date cell carries the
outcome of `pd.to_datetime(..., errors="coerce")` (`none` = missing or
unparseable, i.e. `NaT`), and the price cell the outcome of
`pd.to_numeric(..., errors="coerce")` (`none` = `NaN`). -/
structure RawRow where
  alojamiento : String
  fechaAlta : Option Int
  fechaEntrada : Option Int
  fechaSalida : Option Int
  precio : Option ℚ
deriving DecidableEq, Repr

/-- One uploaded table: which of the five expected columns it has, plus its
rows.  `pd.concat` takes the union of the frames' columns, so only the
per-table presence flags matter for the schema check. -/
structure RawTable where
  hasAlojamiento : Bool
  hasFechaAlta : Bool
  hasFechaEntrada : Bool
  hasFechaSalida : Bool
  hasPrecio : Bool
  rows : List RawRow
deriving DecidableEq, Repr

/-- A normalized reservation record, as produced by `load_excel`:
`Alojamiento` trimmed, dates kept as possibly-null (`NaT`) values, and
`Precio` forced numeric with `fillna(0.0)`. -/
structure Record where
  alojamiento : String
  fechaAlta : Option Int
  fechaEntrada : Option Int
  fechaSalida : Option Int
  precio : ℚ
deriving DecidableEq, Repr

/-- The required columns, in the order `load_excel` checks them. -/
def expectedCols : List String :=
  ["Alojamiento", "Fecha alta", "Fecha entrada", "Fecha salida", "Precio"]

/-- Whether a table has the given expected column. -/
def RawTable.hasCol (t : RawTable) : String → Bool
  | "Alojamiento" => t.hasAlojamiento
  | "Fecha alta" => t.hasFechaAlta
  | "Fecha entrada" => t.hasFechaEntrada
  | "Fecha salida" => t.hasFechaSalida
  | "Precio" => t.hasPrecio
  | _ => false

/-- `missing = [c for c in expected if c not in df_all.columns]` over the
concatenated column set (union of the tables' columns). -/
def missingCols (tables : List RawTable) : List String :=
  expectedCols.filter (fun c => !(tables.any (fun t => t.hasCol c)))

/-- Row normalization done by `load_excel`: trim the property name
(`astype(str).str.strip()`), keep the coerced dates as they are
(`parse_dates`), and replace an unparseable price by `0.0`
(`pd.to_numeric(..., errors="coerce").fillna(0.0)`). -/
def normalizeRow (r : RawRow) : Record :=
  { alojamiento := r.alojamiento.trim
    fechaAlta := r.fechaAlta
    fechaEntrada := r.fechaEntrada
    fechaSalida := r.fechaSalida
    precio := r.precio.getD 0 }

/-- `load_excel`: with no tables return an empty record set; otherwise fail
with the list of missing required columns if any, else concatenate all rows
and normalize them.  The error value models the fatal `SchemaError`
(`st.error(f"Faltan columnas requeridas: ...")` + `st.stop()`) and names the
missing columns. -/
def loadExcel (tables : List RawTable) : Except (List String) (List Record) :=
  if tables.isEmpty then .ok []
  else if missingCols tables = [] then
    .ok ((tables.flatMap (fun t => t.rows)).map normalizeRow)
  else .error (missingCols tables)

/-- The occupied nights of a reservation:
`pd.date_range(entrada, salida - timedelta(days=1), freq="D")`, i.e. the
dates from `entrada` up to but excluding `salida`; empty when
`salida ≤ entrada`. -/
def noches (entrada salida : Int) : List Int :=
  (List.range (salida - entrada).toNat).map (fun i : Nat => entrada + (i : Int))

/-- One night-level row of `expand_reservations`. -/
structure NightRow where
  alojamiento : String
  fecha : Int
  precio : ℚ
  totalNoches : Nat
deriving DecidableEq, Repr

/-- `expand_reservations(df, start, end)`: for each record with both dates
present, take its full occupied-night range, skip the record when that range
is empty, and emit one row per night falling inside the inclusive period
`[pstart, pend]`, carrying the record's price and its FULL night count. -/
def expandReservations (df : List Record) (pstart pend : Int) : List NightRow :=
  df.flatMap (fun r =>
    match r.fechaEntrada, r.fechaSalida with
    | some entrada, some salida =>
      let ns := noches entrada salida
      if ns.isEmpty then []
      else ns.filterMap (fun n =>
        if pstart ≤ n ∧ n ≤ pend then
          some { alojamiento := r.alojamiento, fecha := n, precio := r.precio,
                 totalNoches := ns.length }
        else none)
    | _, _ => [])

/-- `df_all["Alojamiento"].nunique()`: number of distinct property names. -/
def nunique (df : List Record) : Nat :=
  ((df.map (fun r => r.alojamiento)).dedup).length

/-- The boolean mask `df_all["Fecha alta"] <= cutoff`: a null (`NaT`)
creation date compares false, as in pandas. -/
def altaLeCutoff (cutoff : Int) (r : Record) : Bool :=
  match r.fechaAlta with
  | some a => decide (a ≤ cutoff)
  | none => false

/-- Step 1 of `compute_kpis`: keep records with `Fecha alta <= cutoff` and,
when a non-empty property filter is given (Python truthiness of the list),
keep only filtered properties. -/
def dfCutOf (dfAll : List Record) (cutoff : Int)
    (filterProps : Option (List String)) : List Record :=
  let dfCut0 := dfAll.filter (altaLeCutoff cutoff)
  match filterProps with
  | some (p :: ps) => dfCut0.filter (fun r => (p :: ps).contains r.alojamiento)
  | _ => dfCut0

/-- The nightly rows a query works on: cutoff/property filtering followed by
expansion over the period. -/
def nightlyOf (dfAll : List Record) (cutoff pstart pend : Int)
    (filterProps : Option (List String)) : List NightRow :=
  expandReservations (dfCutOf dfAll cutoff filterProps) pstart pend

/-- One row of the per-property KPI table `by_prop`. -/
structure PropRow where
  alojamiento : String
  nochesOcupadas : Nat
  ingresos : ℚ
  adr : ℚ
deriving DecidableEq, Repr

/-- `nightly.groupby("Alojamiento").agg(...)` with
`Ingreso proporcional = Precio / Total noches reserva`, plus the per-group
`ADR = Ingresos / Noches ocupadas`. -/
def byPropOf (nightly : List NightRow) : List PropRow :=
  ((nightly.map (fun n => n.alojamiento)).dedup).map (fun p =>
    let rows := nightly.filter (fun n => decide (n.alojamiento = p))
    let occ := rows.length
    let ing := (rows.map (fun n => n.precio / (n.totalNoches : ℚ))).sum
    { alojamiento := p, nochesOcupadas := occ, ingresos := ing,
      adr := ing / (occ : ℚ) })

/-- The inventory used when no (positive) override applies, from lines
145-148 of the source: `len(set(filter_props))` when a non-empty filter is
given, else `df_all["Alojamiento"].nunique()` over the FULL record set. -/
def inventarioSinOverride (dfAll : List Record) :
    Option (List String) → Int
  | some (p :: ps) => ((((p :: ps)).dedup).length : Int)
  | _ => (nunique dfAll : Int)

/-- The totals dictionary returned by `compute_kpis`. -/
structure Totals where
  nochesOcupadas : Nat
  nochesDisponibles : Int
  ocupacionPct : ℚ
  ingresos : ℚ
  adr : ℚ
  revpar : ℚ
deriving DecidableEq, Repr

/-- `compute_kpis(df_all, cutoff, period_start, period_end,
inventory_override, filter_props)`.  Mirrors the source's two branches: when
no nightly rows exist, the empty-table branch computes available nights from
`len(filter_props)` / `nunique` overridden by ANY given override; otherwise
the per-property table is aggregated and the override applies only when
strictly positive.  All ratio guards (`> 0`) are kept as in the source. -/
def computeKpis (dfAll : List Record) (cutoff pstart pend : Int)
    (inventoryOverride : Option Int) (filterProps : Option (List String)) :
    List PropRow × Totals :=
  let nightly := nightlyOf dfAll cutoff pstart pend filterProps
  if nightly.isEmpty then
    let totalProps0 : Int :=
      match filterProps with
      | some (p :: ps) => ((p :: ps).length : Int)
      | _ => (nunique dfAll : Int)
    let totalProps : Int :=
      match inventoryOverride with
      | some o => o
      | none => totalProps0
    let days : Int := (pend - pstart) + 1
    let nightsAvail : Int := totalProps * days
    ([],
     { nochesOcupadas := 0, nochesDisponibles := nightsAvail,
       ocupacionPct := 0, ingresos := 0, adr := 0, revpar := 0 })
  else
    let byProp := byPropOf nightly
    let nochesOcupadas : Nat := (byProp.map (fun p => p.nochesOcupadas)).sum
    let ingresos : ℚ := (byProp.map (fun p => p.ingresos)).sum
    let adr : ℚ :=
      if nochesOcupadas > 0 then ingresos / (nochesOcupadas : ℚ) else 0
    let inventario0 : Int := inventarioSinOverride dfAll filterProps
    let inventario : Int :=
      match inventoryOverride with
      | some o => if o > 0 then o else inventario0
      | none => inventario0
    let days : Int := (pend - pstart) + 1
    let nochesDisponibles : Int := inventario * days
    let ocupacionPct : ℚ :=
      if nochesDisponibles > 0 then
        ((nochesOcupadas : ℚ) / (nochesDisponibles : ℚ)) * 100
      else 0
    let revpar : ℚ :=
      if nochesDisponibles > 0 then ingresos / (nochesDisponibles : ℚ) else 0
    (byProp,
     { nochesOcupadas := nochesOcupadas, nochesDisponibles := nochesDisponibles,
       ocupacionPct := ocupacionPct, ingresos := ingresos, adr := adr,
       revpar := revpar })

/-- `pd.date_range(a, b, freq="D")`: the inclusive daily range from `a` to
`b`, empty when `b < a`. -/
def dateRange (a b : Int) : List Int :=
  (List.range (b - a + 1).toNat).map (fun i : Nat => a + (i : Int))

/-- One row of the cutoff-evolution table: the cutoff day and the totals
computed with that day as cutoff. -/
structure EvoRow where
  corte : Int
  tot : Totals
deriving DecidableEq, Repr

/-- The cutoff-evolution driver: report a validation error when
`cut_start > cut_end` (`st.error(...)`, no rows computed); otherwise one
totals row per day of the inclusive cutoff range, the target period held
fixed. -/
def evolution (dfAll : List Record) (cutStart cutEnd targetStart targetEnd : Int)
    (inventoryOverride : Option Int) (filterProps : Option (List String)) :
    Except String (List EvoRow) :=
  if cutStart > cutEnd then
    .error "El inicio del rango de corte no puede ser posterior al fin."
  else
    .ok ((dateRange cutStart cutEnd).map (fun c =>
      { corte := c,
        tot := (computeKpis dfAll c targetStart targetEnd
                  inventoryOverride filterProps).2 }))

/-! ### Helper lemmas about the night range and the expander -/

theorem length_noches (e s : Int) : (noches e s).length = (s - e).toNat := by
  unfold noches
  rw [List.length_map, List.length_range]

theorem mem_noches {e s n : Int} : n ∈ noches e s ↔ e ≤ n ∧ n < s := by
  unfold noches
  rw [List.mem_map]
  constructor
  · rintro ⟨i, hi, rfl⟩
    rw [List.mem_range] at hi
    omega
  · intro h
    refine ⟨(n - e).toNat, ?_, ?_⟩
    · rw [List.mem_range]; omega
    · omega

theorem nodup_noches (e s : Int) : (noches e s).Nodup := by
  unfold noches
  refine (List.nodup_range _).map ?_
  intro a b h
  have h2 : e + (a : Int) = e + (b : Int) := h
  omega

theorem count_noches (e s n : Int) :
    (noches e s).count n = if e ≤ n ∧ n < s then 1 else 0 := by
  by_cases h : e ≤ n ∧ n < s
  · rw [if_pos h]
    exact List.count_eq_one_of_mem (nodup_noches e s) (mem_noches.mpr h)
  · rw [if_neg h]
    exact List.count_eq_zero_of_not_mem (fun hm => h (mem_noches.mp hm))

theorem filterMap_if {α β : Type} (p : α → Prop) [DecidablePred p] (f : α → β)
    (l : List α) :
    l.filterMap (fun a => if p a then some (f a) else none)
      = (l.filter (fun a => decide (p a))).map f := by
  induction l with
  | nil => rfl
  | cons a l ih =>
    by_cases h : p a <;>
      simp [List.filterMap_cons, List.filter_cons, h, ih]

theorem sum_map_const {α : Type} (l : List α) (c : ℚ) :
    (l.map (fun _ => c)).sum = l.length * c := by
  induction l with
  | nil => simp
  | cons a l ih => simp [ih]; ring

/-- Closed form of `expand_reservations` on a single record with both dates
present: window-filter the full night range, then build one row per
remaining night carrying the full night count. -/
theorem expand_single (r : Record) (e s pstart pend : Int)
    (he : r.fechaEntrada = some e) (hs : r.fechaSalida = some s) :
    expandReservations [r] pstart pend
      = ((noches e s).filter (fun n => decide (pstart ≤ n ∧ n ≤ pend))).map
          (fun n => { alojamiento := r.alojamiento, fecha := n,
                      precio := r.precio,
                      totalNoches := (noches e s).length }) := by
  show (match r.fechaEntrada, r.fechaSalida with
    | some entrada, some salida =>
      let ns := noches entrada salida
      if ns.isEmpty then []
      else ns.filterMap (fun n =>
        if pstart ≤ n ∧ n ≤ pend then
          some { alojamiento := r.alojamiento, fecha := n, precio := r.precio,
                 totalNoches := ns.length }
        else none)
    | _, _ => ([] : List NightRow)) ++ [] = _
  rw [he, hs]
  by_cases hemp : (noches e s).isEmpty
  · rw [List.isEmpty_iff] at hemp
    simp [hemp]
  · simp only [hemp, if_neg, List.append_nil, Bool.false_eq_true, if_false]
    exact filterMap_if (fun n => pstart ≤ n ∧ n ≤ pend) _ (noches e s)

/-- `load_excel` never drops a row: a successful load returns exactly the
concatenated rows, normalized. -/
theorem loadExcel_ok_eq {tables : List RawTable} {recs : List Record}
    (h : loadExcel tables = .ok recs) :
    recs = (tables.flatMap (fun t => t.rows)).map normalizeRow := by
  unfold loadExcel at h
  split at h
  · rename_i hemp
    rw [List.isEmpty_iff] at hemp
    subst hemp
    simpa using (Except.ok.inj h).symm
  · split at h
    · exact (Except.ok.inj h).symm
    · exact absurd h (by simp)

/-! ### Claim theorems -/

/-- C1: for a record with both dates present, `expand_reservations` emits
exactly one row per night in the half-open range `[check_in, check_out)`
that also lies in the inclusive window `[period_start, period_end]`, and
every emitted row carries the reservation's FULL night count
`check_out - check_in` (computed before windowing) together with the
reservation's price and property, so the nightly share
`price / reservation_length_nights` does not depend on the window. -/
theorem C1_expand_per_night (r : Record) (e s pstart pend : Int)
    (he : r.fechaEntrada = some e) (hs : r.fechaSalida = some s) :
    (∀ n : Int,
      ((expandReservations [r] pstart pend).map (fun row => row.fecha)).count n
        = if e ≤ n ∧ n < s ∧ pstart ≤ n ∧ n ≤ pend then 1 else 0)
    ∧ ∀ row ∈ expandReservations [r] pstart pend,
        row.totalNoches = (s - e).toNat ∧ row.precio = r.precio ∧
          row.alojamiento = r.alojamiento := by
  rw [expand_single r e s pstart pend he hs]
  constructor
  · intro n
    rw [List.map_map]
    have hid : ((fun row => NightRow.fecha row) ∘ fun n =>
        ({ alojamiento := r.alojamiento, fecha := n, precio := r.precio,
           totalNoches := (noches e s).length } : NightRow)) = fun n => n := rfl
    rw [hid, List.map_id']
    by_cases hw : pstart ≤ n ∧ n ≤ pend
    · rw [List.count_filter (by simpa using hw), count_noches]
      by_cases hr : e ≤ n ∧ n < s
      · rw [if_pos hr, if_pos ⟨hr.1, hr.2, hw.1, hw.2⟩]
      · rw [if_neg hr, if_neg (fun hc => hr ⟨hc.1, hc.2.1⟩)]
    · rw [List.count_eq_zero_of_not_mem, if_neg (fun hc => hw ⟨hc.2.2.1, hc.2.2.2⟩)]
      intro hmem
      exact hw (by simpa using (List.mem_filter.mp hmem).2)
  · intro row hrow
    obtain ⟨n, _, rfl⟩ := List.mem_map.mp hrow
    exact ⟨length_noches e s, rfl, rfl⟩

/-- C1 witness: concrete reservation (nights 10,11,12), window `[11,20]`;
night 12 is emitted exactly once. -/
theorem C1_expand_per_night_w :
    ((expandReservations
        [{ alojamiento := "A", fechaAlta := some 0, fechaEntrada := some 10,
           fechaSalida := some 13, precio := 300 }] 11 20).map
        (fun row => row.fecha)).count 12 = 1 := by
  have h := (C1_expand_per_night
    { alojamiento := "A", fechaAlta := some 0, fechaEntrada := some 10,
      fechaSalida := some 13, precio := 300 } 10 13 11 20 rfl rfl).1 12
  norm_num at h
  exact h

/-- C2: for a reservation whose occupied nights all lie inside the window
(`period_start ≤ check_in` and `check_out ≤ period_end + 1`), the emitted
row count equals the full night count; when there is at least one night the
allocated revenues `price / reservation_length_nights` sum back to exactly
the price; and a reservation with `check_in = check_out` yields no rows. -/
theorem C2_full_inside_window (r : Record) (e s pstart pend : Int)
    (he : r.fechaEntrada = some e) (hs : r.fechaSalida = some s)
    (hin : pstart ≤ e) (hout : s ≤ pend + 1) :
    (expandReservations [r] pstart pend).length = (s - e).toNat
    ∧ (e < s →
        ((expandReservations [r] pstart pend).map
            (fun row => row.precio / (row.totalNoches : ℚ))).sum = r.precio)
    ∧ (e = s → expandReservations [r] pstart pend = []) := by
  rw [expand_single r e s pstart pend he hs]
  have hfull : (noches e s).filter (fun n => decide (pstart ≤ n ∧ n ≤ pend))
      = noches e s := by
    rw [List.filter_eq_self]
    intro n hn
    have hmem := mem_noches.mp hn
    show decide (pstart ≤ n ∧ n ≤ pend) = true
    rw [decide_eq_true_eq]
    omega
  rw [hfull]
  refine ⟨by simp [length_noches], ?_, ?_⟩
  · intro hlt
    rw [List.map_map]
    have hc : ((fun row => NightRow.precio row / (NightRow.totalNoches row : ℚ)) ∘
        fun n => ({ alojamiento := r.alojamiento, fecha := n, precio := r.precio,
                    totalNoches := (noches e s).length } : NightRow))
        = fun _ => r.precio / ((noches e s).length : ℚ) := rfl
    rw [hc, sum_map_const, length_noches]
    have hpos : (0 : ℚ) < ((s - e).toNat : ℚ) := by
      have : 0 < (s - e).toNat := by omega
      exact_mod_cast this
    rw [mul_comm]
    exact div_mul_cancel₀ r.precio (ne_of_gt hpos)
  · intro heq
    subst heq
    have : noches e e = [] := by simp [noches]
    simp [this]

/-- C2 witness: reservation with nights 5,6,7 and price 300 inside window
`[0,20]`: 3 rows whose allocations sum to the full price. -/
theorem C2_full_inside_window_w :
    (expandReservations
        [{ alojamiento := "A", fechaAlta := some 0, fechaEntrada := some 5,
           fechaSalida := some 8, precio := 300 }] 0 20).length
      = ((8 : Int) - 5).toNat
    ∧ ((expandReservations
        [{ alojamiento := "A", fechaAlta := some 0, fechaEntrada := some 5,
           fechaSalida := some 8, precio := 300 }] 0 20).map
        (fun row => row.precio / (row.totalNoches : ℚ))).sum = 300 := by
  have h := C2_full_inside_window
    { alojamiento := "A", fechaAlta := some 0, fechaEntrada := some 5,
      fechaSalida := some 8, precio := 300 } 5 8 0 20 rfl rfl
    (by norm_num) (by norm_num)
  exact ⟨h.1, h.2.1 (by norm_num)⟩

/-- Prepending a record to the input either leaves the cutoff/filter result
unchanged (the record is filtered out) or prepends that record to it. -/
theorem dfCutOf_cons (r : Record) (df : List Record) (c : Int)
    (fp : Option (List String)) :
    dfCutOf (r :: df) c fp = dfCutOf df c fp
    ∨ dfCutOf (r :: df) c fp = r :: dfCutOf df c fp := by
  unfold dfCutOf
  rcases fp with _ | ps
  · by_cases h : altaLeCutoff c r
    · right
      simp [List.filter_cons, h]
    · left
      simp [List.filter_cons, h]
  · rcases ps with _ | ⟨p, ps2⟩
    · by_cases h : altaLeCutoff c r
      · right
        simp [List.filter_cons, h]
      · left
        simp [List.filter_cons, h]
    · by_cases h : altaLeCutoff c r
      · by_cases h2 : r.alojamiento ∈ (p :: ps2)
        · right
          simp [List.filter_cons, h, h2]
          intro hne
          rcases List.mem_cons.mp h2 with h3 | h3
          · exact absurd h3 hne
          · exact h3
        · left
          simp [List.filter_cons, h, h2]
          rw [List.mem_cons] at h2
          push_neg at h2
          exact h2
      · left
        simp [List.filter_cons, h]

/-- A one-night reservation of property A occupying day 0, created day 0. -/
def rC10a : Record :=
  { alojamiento := "A", fechaAlta := some 0, fechaEntrada := some 0,
    fechaSalida := some 1, precio := 100 }

/-- An inverted reservation (check-out before check-in) of a FRESH property
Z, created day 0. -/
def rC10inv : Record :=
  { alojamiento := "Z", fechaAlta := some 0, fechaEntrada := some 10,
    fechaSalida := some 3, precio := 100 }

/-- C10 counterexample: an inverted-date record does NOT contribute nothing
to every KPI — its fresh property id still counts toward the default
inventory (`df_all["Alojamiento"].nunique()`), so adding it to a one-record
one-day query doubles the available-nights total (1 → 2), which in turn
halves occupancy % and RevPAR, even though it expands to zero nightly
rows. -/
theorem C10_counterexample :
    (computeKpis [rC10a] 0 0 0 none none).2.nochesDisponibles = 1
    ∧ (computeKpis [rC10a, rC10inv] 0 0 0 none none).2.nochesDisponibles = 2 := by
  decide

/-- C10 amended: a record whose check-out lies strictly before its check-in
expands to no nightly rows at all (no error, no negative-length allocation)
— prepending it to any record list leaves the expansion and the query's
nightly rows unchanged, so it contributes nothing to occupied nights,
revenue or ADR; it can still alter available nights (and hence occupancy
and RevPAR) through the full-record-set default inventory. -/
theorem C10_amended_inverted_range (r : Record) (dfAll : List Record)
    (cutoff pstart pend : Int) (ov : Option Int) (fp : Option (List String))
    (e s : Int)
    (he : r.fechaEntrada = some e) (hs : r.fechaSalida = some s)
    (hlt : s < e) :
    expandReservations (r :: dfAll) pstart pend
      = expandReservations dfAll pstart pend
    ∧ expandReservations [r] pstart pend = []
    ∧ nightlyOf (r :: dfAll) cutoff pstart pend fp
        = nightlyOf dfAll cutoff pstart pend fp
    ∧ (computeKpis (r :: dfAll) cutoff pstart pend ov fp).2.nochesOcupadas
        = (computeKpis dfAll cutoff pstart pend ov fp).2.nochesOcupadas
    ∧ (computeKpis (r :: dfAll) cutoff pstart pend ov fp).2.ingresos
        = (computeKpis dfAll cutoff pstart pend ov fp).2.ingresos
    ∧ (computeKpis (r :: dfAll) cutoff pstart pend ov fp).2.adr
        = (computeKpis dfAll cutoff pstart pend ov fp).2.adr := by
  have hn : noches e s = [] := by
    have h0 : (s - e).toNat = 0 := by omega
    simp [noches, h0]
  have h3 : nightlyOf (r :: dfAll) cutoff pstart pend fp
      = nightlyOf dfAll cutoff pstart pend fp := by
    unfold nightlyOf
    rcases dfCutOf_cons r dfAll cutoff fp with hc | hc <;> rw [hc]
    simp [expandReservations, he, hs, hn]
  refine ⟨?_, ?_, h3, ?_, ?_, ?_⟩
  · simp [expandReservations, he, hs, hn]
  · simp [expandReservations, he, hs, hn]
  · by_cases h : (nightlyOf dfAll cutoff pstart pend fp).isEmpty <;>
      simp [computeKpis, h3, h]
  · by_cases h : (nightlyOf dfAll cutoff pstart pend fp).isEmpty <;>
      simp [computeKpis, h3, h]
  · by_cases h : (nightlyOf dfAll cutoff pstart pend fp).isEmpty <;>
      simp [computeKpis, h3, h]

/-- C10 amended witness: the concrete inverted record of the counterexample
yields no rows, and adding it leaves occupied nights untouched. -/
theorem C10_amended_inverted_range_w :
    expandReservations [rC10inv] 0 0 = []
    ∧ (computeKpis (rC10inv :: [rC10a]) 0 0 0 none none).2.nochesOcupadas
        = (computeKpis [rC10a] 0 0 0 none none).2.nochesOcupadas := by
  have h := C10_amended_inverted_range rC10inv [rC10a] 0 0 0 none none 10 3
    rfl rfl (by norm_num)
  exact ⟨h.2.1, h.2.2.2.1⟩

/-- C3: with no override and no property filter, the available-nights
denominator is built from the distinct-property count of the FULL input
record set — the same value for every cutoff, whether or not any nightly
rows exist; with a (duplicate-free, per the QueryWindow set model) property
filter and no override, it is the distinct count of the filter values. -/
theorem C3_inventory_full_universe (dfAll : List Record)
    (cutoff pstart pend : Int) :
    ((computeKpis dfAll cutoff pstart pend none none).2.nochesDisponibles
      = (nunique dfAll : Int) * ((pend - pstart) + 1))
    ∧ ∀ ps : List String, ps ≠ [] → ps.Nodup →
        (computeKpis dfAll cutoff pstart pend none (some ps)).2.nochesDisponibles
          = ((ps.dedup).length : Int) * ((pend - pstart) + 1) := by
  constructor
  · by_cases h : (nightlyOf dfAll cutoff pstart pend none).isEmpty <;>
      simp [computeKpis, h, inventarioSinOverride]
  · intro ps hne hnd
    rw [hnd.dedup]
    cases ps with
    | nil => exact absurd rfl hne
    | cons p ps2 =>
      by_cases h : (nightlyOf dfAll cutoff pstart pend (some (p :: ps2))).isEmpty <;>
        simp [computeKpis, h, inventarioSinOverride, hnd.dedup]

/-- C3 witness: two records, filter of two distinct properties, no override:
available nights = 2 properties × 10 days. -/
theorem C3_inventory_full_universe_w :
    (computeKpis
        [{ alojamiento := "A", fechaAlta := some 0, fechaEntrada := some 0,
           fechaSalida := some 1, precio := 100 }] 0 0 9 none
        (some ["A", "B"])).2.nochesDisponibles
      = (((["A", "B"]).dedup).length : Int) * (((9 : Int) - 0) + 1) :=
  (C3_inventory_full_universe
    [{ alojamiento := "A", fechaAlta := some 0, fechaEntrada := some 0,
       fechaSalida := some 1, precio := 100 }] 0 0 9).2 ["A", "B"]
    (by decide) (by decide)

/-- Record used to exhibit the C4 divergence: one property, one night (day 0)
outside the queried period `[5,5]`, created on day 0. -/
def rC4 : Record :=
  { alojamiento := "A", fechaAlta := some 0, fechaEntrada := some 0,
    fechaSalida := some 1, precio := 100 }

/-- C4 counterexample: with `inventory_override = 0` (given but not `> 0`)
and no nightly allocations, the code takes the empty-table branch, which
applies ANY given override without the `> 0` check: available nights become
`0`, not the fallback `nunique × days = 1` the claim requires. -/
theorem C4_counterexample :
    (computeKpis [rC4] 0 5 5 (some 0) none).2.nochesDisponibles = 0
    ∧ inventarioSinOverride [rC4] none * (((5 : Int) - 5) + 1) = 1 := by
  decide

/-- C4 amended: an override that is not strictly positive is ignored in
favor of the filter/universe-derived inventory only in the branch where
nightly allocations exist; in the empty-allocations branch any given
override — including one that is not `> 0` — replaces the inventory. -/
theorem C4_amended_override_guard (dfAll : List Record)
    (cutoff pstart pend o : Int) (fp : Option (List String)) (ho : ¬ 0 < o) :
    ((nightlyOf dfAll cutoff pstart pend fp).isEmpty = false →
      (computeKpis dfAll cutoff pstart pend (some o) fp).2.nochesDisponibles
        = inventarioSinOverride dfAll fp * ((pend - pstart) + 1))
    ∧ ((nightlyOf dfAll cutoff pstart pend fp).isEmpty = true →
      (computeKpis dfAll cutoff pstart pend (some o) fp).2.nochesDisponibles
        = o * ((pend - pstart) + 1)) := by
  constructor
  · intro h
    simp [computeKpis, h, ho]
  · intro h
    simp [computeKpis, h]

/-- C4 amended witness: the concrete C4 scenario, where the zero override is
taken verbatim by the empty-allocations branch. -/
theorem C4_amended_override_guard_w :
    (computeKpis [rC4] 0 5 5 (some 0) none).2.nochesDisponibles
      = 0 * (((5 : Int) - 5) + 1) :=
  (C4_amended_override_guard [rC4] 0 5 5 0 none (by decide)).2 (by decide)

/-- C5: in every query result the three ratio KPIs follow their guarded
definitions — `adr = revenue / occupied` when occupied nights are positive
and `0` otherwise, `occupancy = occupied / available × 100` and
`revpar = revenue / available` when available nights are positive and `0`
otherwise — for any input, including zero inventory and inverted or
zero-length periods. -/
theorem C5_ratio_guards (dfAll : List Record) (cutoff pstart pend : Int)
    (ov : Option Int) (fp : Option (List String)) :
    (let tot := (computeKpis dfAll cutoff pstart pend ov fp).2
     tot.adr
        = (if 0 < tot.nochesOcupadas
           then tot.ingresos / (tot.nochesOcupadas : ℚ) else 0)
     ∧ tot.ocupacionPct
        = (if 0 < tot.nochesDisponibles
           then (tot.nochesOcupadas : ℚ) / (tot.nochesDisponibles : ℚ) * 100
           else 0)
     ∧ tot.revpar
        = (if 0 < tot.nochesDisponibles
           then tot.ingresos / (tot.nochesDisponibles : ℚ) else 0)) := by
  by_cases h : (nightlyOf dfAll cutoff pstart pend fp).isEmpty <;>
    simp only [computeKpis, h] <;>
    refine ⟨?_, ?_, ?_⟩ <;>
    simp

/-- Membership in the cutoff-filtered record set forces a non-null creation
date at or before the cutoff. -/
theorem mem_dfCutOf_alta {dfAll : List Record} {cutoff : Int}
    {fp : Option (List String)} {r : Record}
    (hr : r ∈ dfCutOf dfAll cutoff fp) :
    ∃ a, r.fechaAlta = some a ∧ a ≤ cutoff := by
  have hr0 : r ∈ dfAll.filter (altaLeCutoff cutoff) := by
    rcases fp with _ | ps
    · exact hr
    · rcases ps with _ | ⟨p, ps2⟩
      · exact hr
      · exact (List.mem_filter.mp hr).1
  have hpred := (List.mem_filter.mp hr0).2
  cases hA : r.fechaAlta with
  | none => simp [altaLeCutoff, hA] at hpred
  | some a =>
    refine ⟨a, rfl, ?_⟩
    simpa [altaLeCutoff, hA] using hpred

/-- Raw row whose check-in date is missing/unparseable (`NaT`), used to show
normalization keeps it. -/
def rowBadC6 : RawRow :=
  { alojamiento := "B", fechaAlta := some 0, fechaEntrada := none,
    fechaSalida := some 3, precio := some 20 }

/-- A single-table upload containing `rowBadC6`, with all required columns
present. -/
def tC6 : RawTable :=
  { hasAlojamiento := true, hasFechaAlta := true, hasFechaEntrada := true,
    hasFechaSalida := true, hasPrecio := true, rows := [rowBadC6] }

/-- C6 counterexample: a row with an unparseable check-in date is NOT
dropped during normalization — `load_excel` returns its normalized record
(with a null check-in), contradicting the claim that such rows are removed
from the returned record set. -/
theorem C6_counterexample :
    (loadExcel [tC6]).toOption = some [normalizeRow rowBadC6]
    ∧ (normalizeRow rowBadC6).fechaEntrada = none :=
  ⟨rfl, rfl⟩

/-- C6 amended: rows with missing/unparseable dates are RETAINED by
normalization (a successful load returns every concatenated row,
normalized); they are neutralized later instead — a record with a null
check-in or check-out contributes no nightly rows to expansion, and a
record surviving the cutoff filter always has a non-null creation date at
or before the cutoff — and no error is propagated in any of this. -/
theorem C6_amended_rows_retained :
    (∀ (tables : List RawTable) (recs : List Record),
        loadExcel tables = .ok recs →
        recs = (tables.flatMap (fun t => t.rows)).map normalizeRow)
    ∧ (∀ (r : Record) (pstart pend : Int),
        r.fechaEntrada = none ∨ r.fechaSalida = none →
        expandReservations [r] pstart pend = [])
    ∧ (∀ (dfAll : List Record) (cutoff : Int) (fp : Option (List String)),
        ∀ r ∈ dfCutOf dfAll cutoff fp,
          ∃ a, r.fechaAlta = some a ∧ a ≤ cutoff) := by
  refine ⟨?_, ?_, ?_⟩
  · intro tables recs h
    exact loadExcel_ok_eq h
  · intro r pstart pend hor
    rcases hor with h | h
    · simp [expandReservations, h]
    · cases hE : r.fechaEntrada <;> simp [expandReservations, hE, h]
  · intro dfAll cutoff fp r hr
    exact mem_dfCutOf_alta hr

/-- C6 amended witness: the concrete retained record with a null check-in
expands to nothing. -/
theorem C6_amended_rows_retained_w :
    expandReservations [normalizeRow rowBadC6] 0 10 = [] :=
  C6_amended_rows_retained.2.1 (normalizeRow rowBadC6) 0 10 (Or.inl rfl)

/-- C7: the cutoff-evolution driver rejects an inverted cutoff range with a
reported error and no rows; for a well-ordered range it produces exactly one
totals row per calendar day of the inclusive range, in ascending date order
(row `i` carries cutoff `cut_start + i`), each computed by the full pipeline
with that day as the cutoff and the target period held fixed. -/
theorem C7_evolution_rows (dfAll : List Record)
    (cutStart cutEnd targetStart targetEnd : Int)
    (ov : Option Int) (fp : Option (List String)) :
    (cutStart > cutEnd →
      (evolution dfAll cutStart cutEnd targetStart targetEnd ov fp).toOption
        = none)
    ∧ (cutStart ≤ cutEnd →
      (evolution dfAll cutStart cutEnd targetStart targetEnd ov fp).toOption
        ≠ none)
    ∧ ∀ rows,
        (evolution dfAll cutStart cutEnd targetStart targetEnd ov fp).toOption
          = some rows →
        rows.length = (cutEnd - cutStart + 1).toNat
        ∧ ∀ i (h : i < rows.length),
            (rows.get ⟨i, h⟩).corte = cutStart + (i : Int)
            ∧ (rows.get ⟨i, h⟩).tot
              = (computeKpis dfAll (cutStart + (i : Int)) targetStart targetEnd
                  ov fp).2 := by
  by_cases hgt : cutStart > cutEnd
  · refine ⟨fun _ => ?_, fun hle => absurd hle (by omega), fun rows h => ?_⟩
    · simp [evolution, hgt, Except.toOption]
    · simp [evolution, hgt, Except.toOption] at h
  · refine ⟨fun h => absurd h hgt, fun _ => ?_, fun rows h => ?_⟩
    · simp [evolution, hgt, Except.toOption]
    · have hrows : rows = (dateRange cutStart cutEnd).map (fun c =>
          { corte := c,
            tot := (computeKpis dfAll c targetStart targetEnd ov fp).2 }) := by
        simp [evolution, hgt, Except.toOption] at h
        exact h.symm
      subst hrows
      refine ⟨?_, ?_⟩
      · rw [List.length_map]
        unfold dateRange
        rw [List.length_map, List.length_range]
      · intro i hi
        constructor <;>
          simp [dateRange, List.get_eq_getElem]

/-- C7 witness: an inverted range (3 > 1) yields no rows; a well-ordered
range (1 ≤ 2) yields some. -/
theorem C7_evolution_rows_w :
    (evolution [] 3 1 5 6 none none).toOption = none
    ∧ (evolution [] 1 2 5 6 none none).toOption ≠ none :=
  ⟨(C7_evolution_rows [] 3 1 5 6 none none).1 (by norm_num),
   (C7_evolution_rows [] 1 2 5 6 none none).2.1 (by norm_num)⟩

/-- C8: `load_excel` fails — carrying exactly the list of missing required
column names, with no records produced — precisely when at least one table
was supplied and some required column is absent from the concatenated
column set; supplying zero tables instead returns an empty record set
without error. -/
theorem C8_schema_error (tables : List RawTable) :
    (loadExcel ([] : List RawTable) = .ok ([] : List Record))
    ∧ ((loadExcel tables).toOption = none
        ↔ tables ≠ [] ∧ missingCols tables ≠ [])
    ∧ (tables ≠ [] → missingCols tables ≠ [] →
        loadExcel tables = .error (missingCols tables)) := by
  refine ⟨rfl, ?_, ?_⟩
  · by_cases h1 : tables = []
    · subst h1
      simp [loadExcel, Except.toOption]
    · by_cases h2 : missingCols tables = []
      · simp [loadExcel, List.isEmpty_iff, h1, h2, Except.toOption]
      · simp [loadExcel, List.isEmpty_iff, h1, h2, Except.toOption]
  · intro h1 h2
    simp [loadExcel, List.isEmpty_iff, h1, h2]

/-- A table that lacks the price column. -/
def tMissC8 : RawTable :=
  { hasAlojamiento := true, hasFechaAlta := true, hasFechaEntrada := true,
    hasFechaSalida := true, hasPrecio := false, rows := [] }

/-- C8 witness: loading a table without `Precio` fails with exactly that
column named. -/
theorem C8_schema_error_w :
    loadExcel [tMissC8] = .error (missingCols [tMissC8])
    ∧ missingCols [tMissC8] = ["Precio"] :=
  ⟨(C8_schema_error [tMissC8]).2.2 (by decide) (by decide), by decide⟩

/-- Raw row with a parseable NEGATIVE price (`pd.to_numeric` keeps it;
`fillna(0.0)` only replaces `NaN`). -/
def rowNegC9 : RawRow :=
  { alojamiento := "C", fechaAlta := some 0, fechaEntrada := some 1,
    fechaSalida := some 3, precio := some (-50) }

/-- A single-table upload containing `rowNegC9`. -/
def tC9 : RawTable :=
  { hasAlojamiento := true, hasFechaAlta := true, hasFechaEntrada := true,
    hasFechaSalida := true, hasPrecio := true, rows := [rowNegC9] }

/-- C9 counterexample: a parseable negative price survives normalization
unchanged, so the normalized price is NOT always non-negative as the claim
states — `pd.to_numeric(..., errors="coerce").fillna(0.0)` only replaces
unparseable values, it never clamps sign. -/
theorem C9_counterexample :
    (loadExcel [tC9]).toOption = some [normalizeRow rowNegC9]
    ∧ (normalizeRow rowNegC9).precio < 0 :=
  ⟨rfl, by decide⟩

/-- C9 amended: normalization never drops a row and never leaves the price
null — every returned record's price is the parsed raw price with `none`
(unparseable/`NaN`) coerced to `0.0` — but a parseable negative price is
preserved, so non-negativity is not guaranteed. -/
theorem C9_amended_price_coercion (tables : List RawTable)
    (recs : List Record) (h : loadExcel tables = .ok recs) :
    recs.length = (tables.flatMap (fun t => t.rows)).length
    ∧ (∀ rec ∈ recs, ∃ raw ∈ tables.flatMap (fun t => t.rows),
        rec.precio = raw.precio.getD 0)
    ∧ ∀ raw : RawRow, raw.precio = none → (normalizeRow raw).precio = 0 := by
  have heq := loadExcel_ok_eq h
  refine ⟨?_, ?_, ?_⟩
  · rw [heq, List.length_map]
  · intro rec hrec
    rw [heq] at hrec
    obtain ⟨raw, hmem, rfl⟩ := List.mem_map.mp hrec
    exact ⟨raw, hmem, rfl⟩
  · intro raw hnone
    simp [normalizeRow, hnone]

/-- C9 amended witness: an all-null raw row gets price `0.0`. -/
theorem C9_amended_price_coercion_w :
    (normalizeRow { alojamiento := "D", fechaAlta := none, fechaEntrada := none,
                    fechaSalida := none, precio := none }).precio = 0 :=
  (C9_amended_price_coercion [] [] rfl).2.2
    { alojamiento := "D", fechaAlta := none, fechaEntrada := none,
      fechaSalida := none, precio := none } rfl

end OTB
